import Mathlib

/-!
# Verification of the wasmer WASIX process/thread control plane

Shallow embedding of the process- and thread-lifecycle control plane found in
`lib/wasix/src/os/task/control_plane.rs` and `lib/wasix/src/os/task/process.rs`.

Modelling conventions:
* Machine integers (`u32`, `usize`, `u128`) become `Nat`, with explicit
  `% 2^w` exactly where the Rust code performs wrapping arithmetic
  (atomic `fetch_add`/`fetch_sub` on `usize`) and explicit bound checks
  where the code uses `checked_add` on `u32`.
* `HashMap` becomes an association list; `HashMap::insert` replaces any
  existing entry for the key (modelled by cons-after-filter), matching the
  Rust semantics, and `HashMap::remove` filters the key out.
* Shared mutable state (`Arc<Mutex<..>>`, atomics) becomes explicit state
  passing: each operation takes the state it reads and returns the state it
  leaves behind.
* Signal delivery to a thread or a child process crosses into code outside
  this core (`WasiThread::signal`, recursive `signal_process` on the child),
  so a delivery is recorded as an emitted `SignalTarget` event instead of
  being interpreted further.
* `Arc` identity of a thread's completion object (`OwnedTaskStatus`) is
  modelled by a tag: the process's own `finished` object versus a fresh
  allocation (tagged with the thread id, since each `Arc::new` is distinct).
-/

namespace Wasmer

/-- `u32::MAX` as a natural number. -/
def u32Max : Nat := 2 ^ 32 - 1

/-- Modulus of `usize` (the target is 64-bit). -/
def usizeMod : Nat := 2 ^ 64

/-- `WasiProcessId(u32)` from `process.rs`. -/
structure WasiProcessId where
  raw : Nat
deriving DecidableEq, Repr

/-- `WasiThreadId(u32)` (defined in `thread.rs`; only its `raw` u32 payload is
used by the code under verification). -/
structure WasiThreadId where
  raw : Nat
deriving DecidableEq, Repr

/-- Signals are the `wasmer_wasix_types::types::Signal` enum; the control-plane
code only uses them as opaque map keys and event payloads, so they are
modelled as naturals. -/
abbrev Signal := Nat

/-- Exit codes (`wasmer_wasix_types::wasi::ExitCode`); opaque payload here. -/
abbrev ExitCode := Nat

/-- `ControlPlaneError` from `control_plane.rs`. -/
inductive ControlPlaneError where
  | TaskLimitReached (max : Nat)
deriving DecidableEq, Repr

/-- `ControlPlaneConfig` from `control_plane.rs`.  Note that the constructed
`State` of the control plane stores no copy of this configuration: no field
of it can influence `register_task` or the ID allocator. -/
structure ControlPlaneConfig where
  max_task_count : Option Nat
  enable_asynchronous_threading : Bool
  enable_exponential_cpu_backoff : Option Nat
deriving DecidableEq, Repr

/-- `u32::checked_add` specialised to the embedding: `some` of the sum when it
fits in 32 bits, `none` on overflow. -/
def u32CheckedAdd (a b : Nat) : Option Nat :=
  if a + b ≤ u32Max then some (a + b) else none

/-- The control-plane view of a process handle (`WasiProcess` in
`process.rs`): identity, module hash, and the weak parent link.  The shared
`ProcessState` body is modelled separately as `WasiProcessInner` and passed
explicitly; the remaining fields (`compute`, `finished`, `waiting`,
`cpu_run_tokens`) are shared references whose contents the embedded
operations receive as explicit state. The parent link is
`Option<Weak<RwLock<WasiProcessInner>>>`: the outer `Option` is the field,
the inner `Option` is whether the weak upgrade succeeds, carrying the
parent's `pid`. -/
structure WasiProcess where
  pid : WasiProcessId
  module_hash : Nat
  parent : Option (Option WasiProcessId)
deriving DecidableEq, Repr

/-- `MutableState` from `control_plane.rs`: the ID seed and the process map
(association list standing for the `HashMap`). -/
structure MutableState where
  process_seed : Nat
  processes : List (WasiProcessId × WasiProcess)
deriving DecidableEq, Repr

/-- `MutableState::next_process_id`: `checked_add(1)` on the `u32` seed;
overflow is a `TaskLimitReached { max: u32::MAX as usize }` error, success
advances the seed and returns it as the fresh ID. -/
def next_process_id (s : MutableState) :
    Except ControlPlaneError (WasiProcessId × MutableState) :=
  match u32CheckedAdd s.process_seed 1 with
  | none => .error (.TaskLimitReached u32Max)
  | some id => .ok (⟨id⟩, { s with process_seed := id })

/-- `WasiControlPlane::generate_id`: takes the registry lock and calls
`next_process_id`. -/
def generate_id (s : MutableState) :
    Except ControlPlaneError (WasiProcessId × MutableState) :=
  next_process_id s

/-- `WasiProcess::new` restricted to the handle fields (pid, module hash, no
parent); the fresh `WasiProcessInner` body it also builds is
`initialWasiProcessInner` below. -/
def WasiProcess.new (pid : WasiProcessId) (module_hash : Nat) : WasiProcess :=
  { pid := pid, module_hash := module_hash, parent := none }

/-- `HashMap::remove` on the association list: drops every entry with the
key. -/
def mapRemove {α β : Type} [DecidableEq α] (m : List (α × β)) (k : α) :
    List (α × β) :=
  m.filter (fun p => p.1 ≠ k)

/-- `HashMap::insert` on the association list: replaces any entry with the
same key. -/
def mapInsert {α β : Type} [DecidableEq α] (m : List (α × β)) (k : α) (v : β) :
    List (α × β) :=
  (k, v) :: mapRemove m k

/-- `WasiControlPlane::new_process`: builds the process with a placeholder
pid 0 before taking the lock, then under the lock allocates the next ID,
stores it on the process (`set_pid`) and inserts the process into the map. -/
def new_process (s : MutableState) (module_hash : Nat) :
    Except ControlPlaneError (WasiProcess × MutableState) :=
  let proc := WasiProcess.new ⟨0⟩ module_hash
  match next_process_id s with
  | .error e => .error e
  | .ok (pid, s') =>
      let proc := { proc with pid := pid }
      .ok (proc, { s' with processes := mapInsert s'.processes pid proc })

/-- The `MutableState` built by `WasiControlPlane::new`: seed 0, no
processes. -/
def initialMutableState : MutableState :=
  { process_seed := 0, processes := [] }

/-- `TaskCountGuard` from `control_plane.rs`: a pure liability wrapping the
shared `Arc<AtomicUsize>` task counter (the counter itself is passed as
explicit state). -/
inductive TaskCountGuard where
  | mk
deriving DecidableEq, Repr

/-- `WasiControlPlane::register_task`: `fetch_add(1)` on the `usize` task
counter (wrapping), unconditionally returning a guard.  It reads no
configuration (the plane's `State` stores none), so no maximum is
enforced. -/
def register_task (task_count : Nat) :
    Except ControlPlaneError (TaskCountGuard × Nat) :=
  .ok (.mk, (task_count + 1) % usizeMod)

/-- `Drop for TaskCountGuard`: `fetch_sub(1)` on the shared `usize` counter
(wrapping). -/
def TaskCountGuard.dropGuard (_ : TaskCountGuard) (task_count : Nat) : Nat :=
  (task_count + (usizeMod - 1)) % usizeMod

/-- `wasmer_wasix_types::wasix::ThreadStartType`: a main thread or a spawned
thread carrying its start pointer. -/
inductive ThreadStartType where
  | MainThread
  | ThreadSpawn (start_ptr : Nat)
deriving DecidableEq, Repr

/-- `matches!(start, ThreadStartType::MainThread)`. -/
def ThreadStartType.isMainThread : ThreadStartType → Bool
  | .MainThread => true
  | .ThreadSpawn _ => false

/-- Identity of the `Arc<OwnedTaskStatus>` a thread holds: either the
process's own `finished` object (`self.finished.clone()` for the main
thread), or a fresh `Arc::new(OwnedTaskStatus::default())` allocation,
tagged by the thread id (each allocation is a distinct object). -/
inductive TaskStatusRef where
  | processOwned
  | freshStatus (tag : Nat)
deriving DecidableEq, Repr

/-- `WasiThread` as constructed by `WasiThread::new(pid, tid, is_main,
finished, task_count_guard, start)` in `new_thread_with_id`; the guard held
inside the thread is the unit `TaskCountGuard` (its shared counter is
explicit state). -/
structure WasiThread where
  pid : WasiProcessId
  tid : WasiThreadId
  is_main : Bool
  finished : TaskStatusRef
  start : ThreadStartType
deriving DecidableEq, Repr

/-- `WasiSignalInterval` from `os/task/signal.rs` (fields as written into it
by `signal_interval`): the signal, the interval duration in nanoseconds, the
`u128` monotonic timestamp of the last delivery, and the repeat flag. -/
structure WasiSignalInterval where
  signal : Signal
  interval : Nat
  last_signal : Nat
  repeat_ : Bool
deriving DecidableEq, Repr

/-- `WasiProcessInner` from `process.rs`, restricted to the fields the
verified operations read or write; `checkpoint` (always `Execute`),
`disable_journaling_after_checkpoint`, `wakers` and `backoff` are untouched
by every operation embedded here and are omitted.  `waiting` is the
`Arc<AtomicU32>` shared with the `WasiProcess` handle; `children` is the
`Vec<WasiProcess>` of child handles, of which the embedded operations
consult only the `pid` field (signalling a child and `retain` by pid), so
it is kept as the list of child pids. -/
structure WasiProcessInner where
  pid : WasiProcessId
  waiting : Nat
  threads : List (WasiThreadId × WasiThread)
  thread_count : Nat
  signal_intervals : List (Signal × WasiSignalInterval)
  children : List WasiProcessId
deriving DecidableEq, Repr

/-- The fresh `WasiProcessInner` built by `WasiProcess::new`: empty
collections, zero counters. -/
def initialWasiProcessInner (pid : WasiProcessId) : WasiProcessInner :=
  { pid := pid
    waiting := 0
    threads := []
    thread_count := 0
    signal_intervals := []
    children := [] }

/-- A signal-delivery event emitted by the signal operations: the payload of
`thread.signal(signal)` on a local thread, or of `child.signal_process
(signal)` on a child process. -/
inductive SignalTarget where
  | thread (tid : Nat) (signal : Signal)
  | childProcess (pid : Nat) (signal : Signal)
deriving DecidableEq, Repr

/-- `signal_process_internal` from `process.rs`: under the process lock, if
the waiting counter is positive it signals every child, and if that loop
triggered at least once (i.e. the children list was non-empty) it returns;
otherwise it signals every thread in the table.  The emitted deliveries are
returned as events together with the (unchanged) inner state. -/
def signal_process_internal (inner : WasiProcessInner) (signal : Signal) :
    List SignalTarget × WasiProcessInner :=
  if 0 < inner.waiting then
    let childEvents := inner.children.map fun c => SignalTarget.childProcess c.raw signal
    let triggered := !inner.children.isEmpty
    if triggered then
      (childEvents, inner)
    else
      (inner.threads.map (fun t => SignalTarget.thread t.1.raw signal), inner)
  else
    (inner.threads.map (fun t => SignalTarget.thread t.1.raw signal), inner)

/-- `WasiProcess::signal_process`: delegates to `signal_process_internal` on
the process's inner state. -/
def WasiProcess.signal_process (_ : WasiProcess) (inner : WasiProcessInner)
    (signal : Signal) : List SignalTarget × WasiProcessInner :=
  signal_process_internal inner signal

/-- Association-list lookup standing for `HashMap::get`. -/
def mapLookup {α β : Type} [DecidableEq α] (m : List (α × β)) (k : α) :
    Option β :=
  (m.find? (fun p => p.1 = k)).map (fun p => p.2)

/-- The hardcoded libc sentinel in `signal_thread`: `1073741823 = 2^30 - 1`. -/
def sentinelTid : Nat := 1073741823

/-- `WasiProcess::signal_thread`: rewrites the libc sentinel TID `1073741823`
to the process's own pid, then looks the thread up; a hit delivers the
signal to that thread, a miss only logs (`lost-signal`) — no error, no
state change either way. -/
def WasiProcess.signal_thread (proc : WasiProcess) (inner : WasiProcessInner)
    (tid : WasiThreadId) (signal : Signal) :
    List SignalTarget × WasiProcessInner :=
  let tidRaw := if tid.raw = sentinelTid then proc.pid.raw else tid.raw
  let tid : WasiThreadId := ⟨tidRaw⟩
  match mapLookup inner.threads tid with
  | some _ => ([SignalTarget.thread tid.raw signal], inner)
  | none => ([], inner)

/-- `WasiProcess::signal_interval`: a `None` interval removes the schedule
for the signal and returns; a `Some` interval reads the monotonic clock
(`now`, passed as explicit state for `platform_clock_time_get`) and inserts
a `WasiSignalInterval` stamped with it. -/
def WasiProcess.signal_interval (inner : WasiProcessInner) (now : Nat)
    (signal : Signal) (interval : Option Nat) (repeat_ : Bool) :
    WasiProcessInner :=
  match interval with
  | none =>
      { inner with
        signal_intervals := mapRemove inner.signal_intervals signal }
  | some a =>
      { inner with
        signal_intervals :=
          mapInsert inner.signal_intervals signal
            { signal := signal, interval := a, last_signal := now
              repeat_ := repeat_ } }

/-- `WasiProcess::active_threads`: snapshot read of `thread_count` under the
lock. -/
def WasiProcess.active_threads (inner : WasiProcessInner) : Nat :=
  inner.thread_count

/-- `WasiProcess::ppid`: the parent's pid when the weak link exists and
upgrades, `0` otherwise. -/
def WasiProcess.ppid (proc : WasiProcess) : WasiProcessId :=
  match proc.parent with
  | some (some parentPid) => parentPid
  | _ => ⟨0⟩

/-- The combined state threaded through thread creation: the global `usize`
task counter and the process's inner state (the control-plane mutable state
is only needed by `new_thread` itself, for `generate_id`). -/
structure ThreadCreateState where
  task_count : Nat
  inner : WasiProcessInner
deriving DecidableEq, Repr

/-- `WasiProcess::new_thread_with_id`: registers a task (incrementing the
global counter and yielding the guard stored in the thread), picks the
process's own completion object for the main thread or a fresh one
otherwise, inserts the thread into the table and increments
`thread_count`. -/
def WasiProcess.new_thread_with_id (proc : WasiProcess)
    (st : ThreadCreateState) (start : ThreadStartType) (tid : WasiThreadId) :
    Except ControlPlaneError (WasiThread × ThreadCreateState) :=
  match register_task st.task_count with
  | .error e => .error e
  | .ok (_, task_count') =>
      let is_main := start.isMainThread
      let finished :=
        if is_main then TaskStatusRef.processOwned
        else TaskStatusRef.freshStatus tid.raw
      let ctrl : WasiThread :=
        { pid := proc.pid, tid := tid, is_main := is_main
          finished := finished, start := start }
      let inner' :=
        { st.inner with
          threads := mapInsert st.inner.threads tid ctrl
          thread_count := st.inner.thread_count + 1 }
      .ok (ctrl, { task_count := task_count', inner := inner' })

/-- `WasiProcess::new_thread`: the main thread reuses the process's pid as
its tid; any other start kind mints a fresh id from the control plane's
allocator (failing the whole call if that fails), then defers to
`new_thread_with_id`. -/
def WasiProcess.new_thread (proc : WasiProcess) (plane : MutableState)
    (st : ThreadCreateState) (start : ThreadStartType) :
    Except ControlPlaneError (WasiThread × MutableState × ThreadCreateState) :=
  let is_main := start.isMainThread
  match
    (if is_main then
      .ok (⟨proc.pid.raw⟩, plane)
    else
      match generate_id plane with
      | .error e => .error e
      | .ok (id, plane') => .ok ((⟨id.raw⟩ : WasiThreadId), plane') :
      Except ControlPlaneError (WasiThreadId × MutableState))
  with
  | .error e => .error e
  | .ok (tid, plane') =>
      match proc.new_thread_with_id st start tid with
      | .error e => .error e
      | .ok (ctrl, st') => .ok (ctrl, plane', st')

/-- Modelled from the spec: removal of a thread from the table when the last
`WasiThreadHandle` is dropped.  The handle-drop code lives in
`os/task/thread.rs`, which is not part of the sources under verification;
the spec (§4.2) states that dropping the last handle decrements the
bookkeeping inserted by `new_thread_with_id`, i.e. it removes the thread's
entry and decrements `thread_count` when the thread was present. -/
def removeThread (inner : WasiProcessInner) (tid : WasiThreadId) :
    WasiProcessInner :=
  match mapLookup inner.threads tid with
  | some _ =>
      { inner with
        threads := mapRemove inner.threads tid
        thread_count := inner.thread_count - 1 }
  | none => inner

/-- `Errno` values produced by `join_any_child` (`wasmer_wasix_types`):
`Errno::Child` for "no child processes", `Errno::Canceled` as exit-code
fallback. -/
inductive Errno where
  | Child
  | Canceled
deriving DecidableEq, Repr

/-- `WasiProcess::join_any_child`: snapshots the children under the lock and
fails with `Errno::Child` when there are none; otherwise it builds one join
future per child that resolves in the plane registry (`get_process`), races
them with `select_all`, removes the settled child from the live list
(`retain` by pid) and returns its pid and exit code.  The race's outcome is
the event outside this core: `registered` says which pids `get_process`
resolves, `settled` gives the exit code each child's join settles to (after
the error-to-exit-code conversion), and `k` is the index, among the raced
children, of the future `select_all` completes first.  The overall `none`
result is the case where no raced future exists at index `k`; in particular
`select_all` on an empty future set panics in the code, so that case is a
divergence, never a returned value. -/
def WasiProcess.join_any_child (_ : WasiProcess) (inner : WasiProcessInner)
    (registered : Nat → Bool) (settled : Nat → ExitCode) (k : Nat) :
    Option (Except Errno (Option (WasiProcessId × ExitCode)) × WasiProcessInner) :=
  if inner.children.isEmpty then
    some (.error Errno.Child, inner)
  else
    match (inner.children.filter fun c => registered c.raw)[k]? with
    | none => none
    | some child =>
        some (.ok (some (child, settled child.raw)),
          { inner with
            children := inner.children.filter fun a => a.raw ≠ child.raw })

/-! ## Helper lemmas about the association-list map operations -/

theorem mapLookup_nil {α β : Type} [DecidableEq α] (k : α) :
    mapLookup ([] : List (α × β)) k = none := rfl

theorem mapLookup_cons {α β : Type} [DecidableEq α] (p : α × β)
    (m : List (α × β)) (k : α) :
    mapLookup (p :: m) k = if p.1 = k then some p.2 else mapLookup m k := by
  by_cases h : p.1 = k <;> simp [mapLookup, List.find?, h]

theorem mapRemove_nil {α β : Type} [DecidableEq α] (k : α) :
    mapRemove ([] : List (α × β)) k = [] := rfl

theorem mapRemove_cons {α β : Type} [DecidableEq α] (p : α × β)
    (m : List (α × β)) (k : α) :
    mapRemove (p :: m) k =
      if p.1 = k then mapRemove m k else p :: mapRemove m k := by
  by_cases hp : p.1 = k <;> simp [mapRemove, List.filter_cons, hp]

theorem mapLookup_mapRemove_self {α β : Type} [DecidableEq α]
    (m : List (α × β)) (k : α) :
    mapLookup (mapRemove m k) k = none := by
  induction m with
  | nil => rfl
  | cons p m ih =>
      rw [mapRemove_cons]
      by_cases hp : p.1 = k
      · simpa [hp] using ih
      · rw [if_neg hp, mapLookup_cons, if_neg hp]
        exact ih

theorem mapLookup_mapRemove_ne {α β : Type} [DecidableEq α]
    (m : List (α × β)) (k k' : α) (h : k' ≠ k) :
    mapLookup (mapRemove m k) k' = mapLookup m k' := by
  induction m with
  | nil => rfl
  | cons p m ih =>
      rw [mapRemove_cons]
      by_cases hp : p.1 = k
      · have hk' : p.1 ≠ k' := fun hcontra => h (hcontra ▸ hp)
        rw [if_pos hp, mapLookup_cons, if_neg hk']
        exact ih
      · rw [if_neg hp, mapLookup_cons, mapLookup_cons]
        by_cases hq : p.1 = k'
        · rw [if_pos hq, if_pos hq]
        · rw [if_neg hq, if_neg hq]
          exact ih

theorem mapLookup_mapInsert_self {α β : Type} [DecidableEq α]
    (m : List (α × β)) (k : α) (v : β) :
    mapLookup (mapInsert m k v) k = some v := by
  rw [mapInsert, mapLookup_cons, if_pos rfl]

theorem mapLookup_mapInsert_ne {α β : Type} [DecidableEq α]
    (m : List (α × β)) (k k' : α) (v : β) (h : k' ≠ k) :
    mapLookup (mapInsert m k v) k' = mapLookup m k' := by
  rw [mapInsert, mapLookup_cons, if_neg (fun hcontra => h hcontra.symm)]
  exact mapLookup_mapRemove_ne m k k' h

theorem mapRemove_of_lookup_none {α β : Type} [DecidableEq α]
    (m : List (α × β)) (k : α) (h : mapLookup m k = none) :
    mapRemove m k = m := by
  induction m with
  | nil => rfl
  | cons p m ih =>
      rw [mapLookup_cons] at h
      by_cases hp : p.1 = k
      · rw [if_pos hp] at h; exact absurd h (by simp)
      · rw [if_neg hp] at h
        rw [mapRemove_cons, if_neg hp, ih h]

theorem mapInsert_length_of_lookup_none {α β : Type} [DecidableEq α]
    (m : List (α × β)) (k : α) (v : β) (h : mapLookup m k = none) :
    (mapInsert m k v).length = m.length + 1 := by
  rw [mapInsert, List.length_cons, mapRemove_of_lookup_none m k h]

theorem mapRemove_length_of_lookup_some {α β : Type} [DecidableEq α]
    (m : List (α × β)) (k : α) (v : β)
    (hnd : (m.map Prod.fst).Nodup) (h : mapLookup m k = some v) :
    (mapRemove m k).length + 1 = m.length := by
  induction m with
  | nil => exact absurd h (by simp [mapLookup])
  | cons p m ih =>
      rw [mapLookup_cons] at h
      simp only [List.map_cons, List.nodup_cons] at hnd
      by_cases hp : p.1 = k
      · have hnone : mapLookup m k = none := by
          cases hm : mapLookup m k with
          | none => rfl
          | some w =>
              exfalso
              apply hnd.1
              subst hp
              simp only [mapLookup, Option.map_eq_some'] at hm
              obtain ⟨q, hq, _⟩ := hm
              have hqk := List.find?_some hq
              simp only [decide_eq_true_eq] at hqk
              exact hqk ▸ List.mem_map_of_mem Prod.fst (List.mem_of_find?_eq_some hq)
        rw [mapRemove_cons, if_pos hp, mapRemove_of_lookup_none m k hnone,
          List.length_cons]
      · rw [if_neg hp] at h
        rw [mapRemove_cons, if_neg hp, List.length_cons, List.length_cons,
          ih hnd.2 h]

theorem mapRemove_sublist {α β : Type} [DecidableEq α]
    (m : List (α × β)) (k : α) : (mapRemove m k).Sublist m :=
  List.filter_sublist m

theorem mapInsert_keys_nodup {α β : Type} [DecidableEq α]
    (m : List (α × β)) (k : α) (v : β) (hnd : (m.map Prod.fst).Nodup) :
    ((mapInsert m k v).map Prod.fst).Nodup := by
  rw [mapInsert, List.map_cons, List.nodup_cons]
  constructor
  · intro hmem
    simp only [List.mem_map] at hmem
    obtain ⟨p, hp, hpk⟩ := hmem
    rw [mapRemove] at hp
    have hne := List.of_mem_filter hp
    simp only [decide_eq_true_eq] at hne
    exact hne hpk
  · exact List.Nodup.sublist ((mapRemove_sublist m k).map Prod.fst) hnd

/-! ## Claim theorems -/

/-- C4: `register_task` always increments the global task counter by exactly
one (as the wrapping `usize` `fetch_add(1)`, hence literally `+ 1` whenever
the counter is below `usize::MAX`) and returns an `AdmissionGuard`, never
returning `TaskLimitReached`; the configuration — in particular
`max_task_count` — plays no role, since the constructed plane state stores
no configuration for `register_task` to consult. -/
theorem register_task_unconditional :
    ∀ (_cfg : ControlPlaneConfig) (task_count : Nat),
      register_task task_count =
        .ok (TaskCountGuard.mk, (task_count + 1) % usizeMod) ∧
      (task_count + 1 < usizeMod →
        register_task task_count = .ok (TaskCountGuard.mk, task_count + 1)) ∧
      ∀ e, register_task task_count ≠ .error e := by
  intro _cfg task_count
  refine ⟨rfl, ?_, ?_⟩
  · intro h
    rw [register_task, Nat.mod_eq_of_lt h]
  · intro e h
    exact Except.noConfusion h

/-- Witness for C4 at a concrete configuration (with a maximum task count
configured) and counter value. -/
theorem register_task_unconditional_witness :
    register_task 5 = .ok (TaskCountGuard.mk, 6) :=
  (register_task_unconditional
    { max_task_count := some 1, enable_asynchronous_threading := false
      enable_exponential_cpu_backoff := none } 5).2.1 (by norm_num [usizeMod])

/-- C5: dropping a `TaskCountGuard` decrements the shared task counter by
exactly one and nothing else: started from any counter value `c` below the
`usize` modulus, the value after `register_task` followed by the guard's
drop is `c` again, and on any counter value of at least one the drop is
literally `- 1`.  The drop reads nothing but the counter, so it behaves the
same on every call path that owned the guard. -/
theorem task_count_guard_drop_decrements :
    ∀ (g : TaskCountGuard) (c : Nat), c < usizeMod →
      ((∀ g' cnt', register_task c = .ok (g', cnt') →
          g.dropGuard cnt' = c) ∧
        (1 ≤ c → g.dropGuard c = c - 1)) := by
  intro g c hc
  constructor
  · intro g' cnt' h
    simp only [register_task, Except.ok.injEq, Prod.mk.injEq] at h
    obtain ⟨-, h2⟩ := h
    subst h2
    show ((c + 1) % usizeMod + (usizeMod - 1)) % usizeMod = c
    simp only [usizeMod] at hc ⊢
    omega
  · intro h1
    show (c + (usizeMod - 1)) % usizeMod = c - 1
    simp only [usizeMod] at hc ⊢
    omega

/-- Witness for C5 at a concrete counter value. -/
theorem task_count_guard_drop_decrements_witness :
    TaskCountGuard.mk.dropGuard 6 = 5 :=
  ((task_count_guard_drop_decrements TaskCountGuard.mk 6 (by norm_num [usizeMod])).2)
    (by decide)

/-- Shape of a successful `next_process_id` call: it succeeds exactly below
the 32-bit ceiling, returning the incremented seed as the ID and advancing
the stored seed to it. -/
theorem next_process_id_ok (s : MutableState) (id : WasiProcessId)
    (s' : MutableState) (h : next_process_id s = .ok (id, s')) :
    id.raw = s.process_seed + 1 ∧ s'.process_seed = s.process_seed + 1 ∧
      s'.processes = s.processes ∧ s.process_seed + 1 ≤ u32Max := by
  rw [next_process_id, u32CheckedAdd] at h
  by_cases hle : s.process_seed + 1 ≤ u32Max
  · rw [if_pos hle] at h
    simp only [Except.ok.injEq, Prod.mk.injEq] at h
    obtain ⟨h1, h2⟩ := h
    subst h2
    exact ⟨congrArg WasiProcessId.raw h1.symm, rfl, rfl, hle⟩
  · rw [if_neg hle] at h
    exact Except.noConfusion h

/-- `next_process_id` fails with `TaskLimitReached { max: u32::MAX }` exactly
when the seed has reached `u32::MAX`. -/
theorem next_process_id_exhaustion (s : MutableState)
    (h : s.process_seed = u32Max) :
    next_process_id s = .error (.TaskLimitReached u32Max) := by
  rw [next_process_id, u32CheckedAdd, if_neg (by omega)]

/-- Shape of a successful `new_process` call: the returned process carries
the freshly allocated ID (seed + 1) and the seed advances with it. -/
theorem new_process_ok (s : MutableState) (module_hash : Nat)
    (p : WasiProcess) (s' : MutableState)
    (h : new_process s module_hash = .ok (p, s')) :
    p.pid.raw = s.process_seed + 1 ∧ s'.process_seed = s.process_seed + 1 := by
  rw [new_process] at h
  cases hnext : next_process_id s with
  | error e => rw [hnext] at h; exact Except.noConfusion h
  | ok out =>
      obtain ⟨id, s1⟩ := out
      obtain ⟨hid, hseed, -, -⟩ := next_process_id_ok s id s1 hnext
      rw [hnext] at h
      simp only [Except.ok.injEq, Prod.mk.injEq] at h
      obtain ⟨hp, hs⟩ := h
      subst hp; subst hs
      exact ⟨hid, hseed⟩

/-- The sequence of pids returned by `n` consecutive `new_process` calls on
one control plane, stopping at the first failure. -/
def newProcessTrace (module_hash : Nat) : MutableState → Nat → List Nat
  | _, 0 => []
  | s, n + 1 =>
      match new_process s module_hash with
      | .ok (p, s') => p.pid.raw :: newProcessTrace module_hash s' n
      | .error _ => []

/-- Every pid in the trace exceeds the seed the trace started from. -/
theorem newProcessTrace_gt (module_hash : Nat) :
    ∀ (n : Nat) (s : MutableState) (x : Nat),
      x ∈ newProcessTrace module_hash s n → s.process_seed < x := by
  intro n
  induction n with
  | zero => intro s x hx; exact absurd hx (by simp [newProcessTrace])
  | succ n ih =>
      intro s x hx
      rw [newProcessTrace] at hx
      cases hp : new_process s module_hash with
      | error e => rw [hp] at hx; exact absurd hx (by simp)
      | ok out =>
          obtain ⟨p, s'⟩ := out
          obtain ⟨hid, hseed⟩ := new_process_ok s module_hash p s' hp
          rw [hp] at hx
          rcases List.mem_cons.mp hx with hx | hx
          · omega
          · have := ih s' x hx
            omega

/-- The pids in a `new_process` trace are strictly increasing in order. -/
theorem newProcessTrace_pairwise (module_hash : Nat) :
    ∀ (n : Nat) (s : MutableState),
      (newProcessTrace module_hash s n).Pairwise (· < ·) := by
  intro n
  induction n with
  | zero => intro s; simp [newProcessTrace]
  | succ n ih =>
      intro s
      rw [newProcessTrace]
      cases hp : new_process s module_hash with
      | error e => simp
      | ok out =>
          obtain ⟨p, s'⟩ := out
          obtain ⟨hid, hseed⟩ := new_process_ok s module_hash p s' hp
          refine List.pairwise_cons.mpr ⟨?_, ih s'⟩
          intro x hx
          have := newProcessTrace_gt module_hash n s' x hx
          omega

/-- C2: process IDs handed out by consecutive `new_process` calls on one
control plane (equivalently by `generate_id`, the same allocator) are
strictly increasing and pairwise distinct, and once the 32-bit seed has
reached `u32::MAX` any further allocation fails with `TaskLimitReached`
instead of wrapping or reusing an ID. -/
theorem new_process_ids_strictly_increasing :
    (∀ (module_hash n : Nat),
        (newProcessTrace module_hash initialMutableState n).Pairwise (· < ·) ∧
        (newProcessTrace module_hash initialMutableState n).Nodup) ∧
    (∀ (s : MutableState) (module_hash : Nat), s.process_seed = u32Max →
        new_process s module_hash = .error (.TaskLimitReached u32Max)) ∧
    (∀ s : MutableState, s.process_seed = u32Max →
        generate_id s = .error (.TaskLimitReached u32Max)) := by
  refine ⟨?_, ?_, ?_⟩
  · intro module_hash n
    have hpw := newProcessTrace_pairwise module_hash n initialMutableState
    exact ⟨hpw, hpw.imp Nat.ne_of_lt⟩
  · intro s module_hash h
    rw [new_process, next_process_id_exhaustion s h]
  · intro s h
    rw [generate_id, next_process_id_exhaustion s h]

/-- Witness for C2: a concrete three-call trace is strictly increasing, and
allocation at a concrete exhausted state fails. -/
theorem new_process_ids_strictly_increasing_witness :
    (newProcessTrace 7 initialMutableState 3).Pairwise (· < ·) ∧
      new_process { process_seed := u32Max, processes := [] } 7 =
        .error (.TaskLimitReached u32Max) :=
  ⟨(new_process_ids_strictly_increasing.1 7 3).1,
    new_process_ids_strictly_increasing.2.1
      { process_seed := u32Max, processes := [] } 7 rfl⟩

/-- C10: every process ID the allocator hands out is nonzero (the very first
one, from the seed 0 of `WasiControlPlane::new`, is 1), `ppid()` returns 0
exactly as the "no parent / parent gone" sentinel, and no process's real
pid can ever equal that sentinel. -/
theorem allocated_ids_nonzero :
    (∀ (s : MutableState) (id : WasiProcessId) (s' : MutableState),
        next_process_id s = .ok (id, s') → 0 < id.raw) ∧
    (∃ s', next_process_id initialMutableState = .ok (⟨1⟩, s')) ∧
    (∀ proc : WasiProcess,
        proc.parent = none ∨ proc.parent = some none →
          proc.ppid = ⟨0⟩) ∧
    (∀ (s : MutableState) (id : WasiProcessId) (s' : MutableState)
        (proc : WasiProcess),
        next_process_id s = .ok (id, s') →
        proc.parent = none ∨ proc.parent = some none →
          proc.ppid ≠ id) := by
  refine ⟨?_, ?_, ?_, ?_⟩
  · intro s id s' h
    obtain ⟨hid, -⟩ := next_process_id_ok s id s' h
    omega
  · exact ⟨{ process_seed := 1, processes := [] }, rfl⟩
  · intro proc h
    rcases h with h | h <;> rw [WasiProcess.ppid, h]
  · intro s id s' proc hnext hpar
    obtain ⟨hid, -⟩ := next_process_id_ok s id s' hnext
    have hz : proc.ppid = ⟨0⟩ := by
      rcases hpar with h | h <;> rw [WasiProcess.ppid, h]
    rw [hz]
    intro hcontra
    have : (0 : Nat) = id.raw := congrArg WasiProcessId.raw hcontra
    omega

/-- Witness for C10: the first allocation on a fresh plane yields pid 1,
which is distinct from the ppid-sentinel 0 of a parentless process. -/
theorem allocated_ids_nonzero_witness :
    (WasiProcess.new ⟨5⟩ 3).ppid ≠ (⟨1⟩ : WasiProcessId) :=
  allocated_ids_nonzero.2.2.2 initialMutableState ⟨1⟩
    { process_seed := 1, processes := [] } (WasiProcess.new ⟨5⟩ 3) rfl
    (Or.inl rfl)

/-- C1: `signal_process` delivers the signal to every child process and to
none of the process's own threads exactly when the waiting counter is
positive and the children list is non-empty; in every other case (in
particular whenever the children list is empty) it delivers to every thread
in the thread table and to no child; the process state — in particular the
children list — is never modified. -/
theorem signal_process_routing :
    ∀ (inner : WasiProcessInner) (sig : Signal),
      (signal_process_internal inner sig).2 = inner ∧
      (0 < inner.waiting ∧ inner.children ≠ [] →
        (signal_process_internal inner sig).1 =
          inner.children.map (fun c => SignalTarget.childProcess c.raw sig) ∧
        ∀ t s', SignalTarget.thread t s' ∉ (signal_process_internal inner sig).1) ∧
      (¬(0 < inner.waiting ∧ inner.children ≠ []) →
        (signal_process_internal inner sig).1 =
          inner.threads.map (fun t => SignalTarget.thread t.1.raw sig) ∧
        ∀ p s', SignalTarget.childProcess p s' ∉
          (signal_process_internal inner sig).1) := by
  intro inner sig
  by_cases hw : 0 < inner.waiting
  · by_cases hc : inner.children = []
    · have heval : signal_process_internal inner sig =
          (inner.threads.map (fun t => SignalTarget.thread t.1.raw sig), inner) := by
        rw [signal_process_internal, if_pos hw, hc]
        simp
      refine ⟨by rw [heval], fun h => absurd h.2 (by simp [hc]),
        fun _ => ⟨by rw [heval], ?_⟩⟩
      intro p s' hmem
      rw [heval] at hmem
      simp only [List.mem_map] at hmem
      obtain ⟨t, -, ht⟩ := hmem
      exact SignalTarget.noConfusion ht
    · have hne : inner.children.isEmpty = false := by
        simp [List.isEmpty_iff, hc]
      have heval : signal_process_internal inner sig =
          (inner.children.map (fun c => SignalTarget.childProcess c.raw sig), inner) := by
        rw [signal_process_internal, if_pos hw]
        simp [hne]
      refine ⟨by rw [heval], fun _ => ⟨by rw [heval], ?_⟩,
        fun h => absurd ⟨hw, hc⟩ h⟩
      intro t s' hmem
      rw [heval] at hmem
      simp only [List.mem_map] at hmem
      obtain ⟨c, -, hcm⟩ := hmem
      exact SignalTarget.noConfusion hcm
  · have heval : signal_process_internal inner sig =
        (inner.threads.map (fun t => SignalTarget.thread t.1.raw sig), inner) := by
      rw [signal_process_internal, if_neg hw]
    refine ⟨by rw [heval], fun h => absurd h.1 hw, fun _ => ⟨by rw [heval], ?_⟩⟩
    intro p s' hmem
    rw [heval] at hmem
    simp only [List.mem_map] at hmem
    obtain ⟨t, -, ht⟩ := hmem
    exact SignalTarget.noConfusion ht

/-- Witness for C1: a waiting process with children signals exactly its
children; a process with no children signals exactly its threads even while
waiting. -/
theorem signal_process_routing_witness :
    ((signal_process_internal
        { pid := ⟨1⟩, waiting := 1, threads := [], thread_count := 0
          signal_intervals := [], children := [⟨2⟩, ⟨3⟩] } 9).1 =
      [SignalTarget.childProcess 2 9, SignalTarget.childProcess 3 9]) ∧
    ((signal_process_internal
        { pid := ⟨1⟩, waiting := 1
          threads := [(⟨1⟩, { pid := ⟨1⟩, tid := ⟨1⟩, is_main := true
                              finished := .processOwned, start := .MainThread })]
          thread_count := 1, signal_intervals := [], children := [] } 9).1 =
      [SignalTarget.thread 1 9]) :=
  ⟨((signal_process_routing
      { pid := ⟨1⟩, waiting := 1, threads := [], thread_count := 0
        signal_intervals := [], children := [⟨2⟩, ⟨3⟩] } 9).2.1
      (by exact ⟨by decide, by decide⟩)).1,
    ((signal_process_routing
      { pid := ⟨1⟩, waiting := 1
        threads := [(⟨1⟩, { pid := ⟨1⟩, tid := ⟨1⟩, is_main := true
                            finished := .processOwned, start := .MainThread })]
        thread_count := 1, signal_intervals := [], children := [] } 9).2.2
      (by simp)).1⟩

/-- C9: `signal_interval sig (some d) r` immediately followed by
`signal_interval sig none _` leaves no schedule for `sig`; a `none` interval
removes any existing schedule for the signal, a `some` interval installs one
whose `last_signal` is the current monotonic clock reading, and neither
call touches any other signal's schedule. -/
theorem signal_interval_round_trip :
    ∀ (inner : WasiProcessInner) (now now' : Nat) (sig : Signal) (d : Nat)
      (r r' : Bool),
      mapLookup (WasiProcess.signal_interval
          (WasiProcess.signal_interval inner now sig (some d) r)
          now' sig none r').signal_intervals sig = none ∧
      mapLookup ((WasiProcess.signal_interval inner now sig none
        r).signal_intervals) sig = none ∧
      mapLookup ((WasiProcess.signal_interval inner now sig (some d)
          r).signal_intervals) sig =
        some { signal := sig, interval := d, last_signal := now
               repeat_ := r } ∧
      (∀ sig', sig' ≠ sig →
        mapLookup ((WasiProcess.signal_interval inner now sig none
            r).signal_intervals) sig' =
          mapLookup inner.signal_intervals sig' ∧
        mapLookup ((WasiProcess.signal_interval inner now sig (some d)
            r).signal_intervals) sig' =
          mapLookup inner.signal_intervals sig') := by
  intro inner now now' sig d r r'
  refine ⟨?_, ?_, ?_, ?_⟩
  · exact mapLookup_mapRemove_self _ sig
  · exact mapLookup_mapRemove_self _ sig
  · exact mapLookup_mapInsert_self _ sig _
  · intro sig' hne
    exact ⟨mapLookup_mapRemove_ne _ sig sig' hne,
      mapLookup_mapInsert_ne _ sig sig' _ hne⟩

/-- Witness for C9: installing then removing a schedule for signal 14 on a
concrete process leaves no schedule for it, and a schedule for signal 2 is
untouched by both calls. -/
theorem signal_interval_round_trip_witness :
    mapLookup (WasiProcess.signal_interval
        (WasiProcess.signal_interval
          { pid := ⟨1⟩, waiting := 0, threads := [], thread_count := 0
            signal_intervals := [(2, { signal := 2, interval := 5
                                       last_signal := 0, repeat_ := true })]
            children := [] } 100 14 (some 7) false)
        200 14 none true).signal_intervals 14 = none ∧
    mapLookup (WasiProcess.signal_interval
        { pid := ⟨1⟩, waiting := 0, threads := [], thread_count := 0
          signal_intervals := [(2, { signal := 2, interval := 5
                                     last_signal := 0, repeat_ := true })]
          children := [] } 100 14 (some 7) false).signal_intervals 2 =
      some { signal := 2, interval := 5, last_signal := 0, repeat_ := true } :=
  ⟨(signal_interval_round_trip
      { pid := ⟨1⟩, waiting := 0, threads := [], thread_count := 0
        signal_intervals := [(2, { signal := 2, interval := 5
                                   last_signal := 0, repeat_ := true })]
        children := [] } 100 200 14 7 false true).1,
    ((signal_interval_round_trip
      { pid := ⟨1⟩, waiting := 0, threads := [], thread_count := 0
        signal_intervals := [(2, { signal := 2, interval := 5
                                   last_signal := 0, repeat_ := true })]
        children := [] } 100 200 14 7 false true).2.2.2 2 (by decide)).2⟩

/-- Counterexample to C8 as stated: the sentinel recognised by
`signal_thread` is the hardcoded libc value `1073741823 = 2^30 - 1`, not the
maximum representable value of the TID's integer width (`u32::MAX =
4294967295`).  On a process with pid 1 whose thread table contains exactly
the thread with tid 1, signalling tid `u32::MAX` is dropped even though the
process's own thread exists — so `u32::MAX` is not resolved to the pid —
while signalling tid `1073741823` does reach thread 1. -/
theorem signal_thread_sentinel_counterexample :
    ((WasiProcess.new ⟨1⟩ 0).signal_thread
        { pid := ⟨1⟩, waiting := 0
          threads := [(⟨1⟩, { pid := ⟨1⟩, tid := ⟨1⟩, is_main := true
                              finished := .processOwned, start := .MainThread })]
          thread_count := 1, signal_intervals := [], children := [] }
        ⟨4294967295⟩ 9).1 = [] ∧
    ((WasiProcess.new ⟨1⟩ 0).signal_thread
        { pid := ⟨1⟩, waiting := 0
          threads := [(⟨1⟩, { pid := ⟨1⟩, tid := ⟨1⟩, is_main := true
                              finished := .processOwned, start := .MainThread })]
          thread_count := 1, signal_intervals := [], children := [] }
        ⟨1073741823⟩ 9).1 = [SignalTarget.thread 1 9] ∧
    (4294967295 : Nat) = u32Max ∧ sentinelTid ≠ u32Max := by
  refine ⟨rfl, rfl, by norm_num [u32Max], by norm_num [sentinelTid, u32Max]⟩

/-- C8 (amended): `signal_thread` resolves a target TID equal to the
hardcoded libc sentinel `1073741823` (`2^30 - 1`) — not the maximum of the
32-bit TID width — to the process's own PID before the lookup; when the
resolved target is missing from the thread table the signal is dropped with
no state change and no error (the operation cannot fail by type), and when
it is present the signal is delivered to exactly that thread. -/
theorem signal_thread_sentinel_resolution :
    ∀ (proc : WasiProcess) (inner : WasiProcessInner) (tid : WasiThreadId)
      (sig : Signal),
      (proc.signal_thread inner tid sig).2 = inner ∧
      (tid.raw = sentinelTid →
        proc.signal_thread inner tid sig =
          proc.signal_thread inner ⟨proc.pid.raw⟩ sig ∨
        proc.pid.raw = sentinelTid) ∧
      (mapLookup inner.threads
          ⟨if tid.raw = sentinelTid then proc.pid.raw else tid.raw⟩ = none →
        (proc.signal_thread inner tid sig).1 = []) ∧
      (∀ t, mapLookup inner.threads
          ⟨if tid.raw = sentinelTid then proc.pid.raw else tid.raw⟩ = some t →
        (proc.signal_thread inner tid sig).1 =
          [SignalTarget.thread
            (if tid.raw = sentinelTid then proc.pid.raw else tid.raw) sig]) := by
  intro proc inner tid sig
  refine ⟨?_, ?_, ?_, ?_⟩
  · rw [WasiProcess.signal_thread]
    cases mapLookup inner.threads
        ⟨if tid.raw = sentinelTid then proc.pid.raw else tid.raw⟩ <;> rfl
  · intro hs
    by_cases hp : proc.pid.raw = sentinelTid
    · exact Or.inr hp
    · refine Or.inl ?_
      rw [WasiProcess.signal_thread, WasiProcess.signal_thread]
      rw [if_pos hs, if_neg hp]
  · intro hnone
    rw [WasiProcess.signal_thread]
    rw [hnone]
  · intro t hsome
    rw [WasiProcess.signal_thread]
    rw [hsome]

/-- Witness for C8 (amended): on a concrete process with pid 1 and a single
thread 1, the sentinel TID reaches thread 1, and a missing tid 5 is
dropped. -/
theorem signal_thread_sentinel_resolution_witness :
    ((WasiProcess.new ⟨1⟩ 0).signal_thread
        { pid := ⟨1⟩, waiting := 0
          threads := [(⟨1⟩, { pid := ⟨1⟩, tid := ⟨1⟩, is_main := true
                              finished := .processOwned, start := .MainThread })]
          thread_count := 1, signal_intervals := [], children := [] }
        ⟨1073741823⟩ 9).1 = [SignalTarget.thread 1 9] ∧
    ((WasiProcess.new ⟨1⟩ 0).signal_thread
        { pid := ⟨1⟩, waiting := 0
          threads := [(⟨1⟩, { pid := ⟨1⟩, tid := ⟨1⟩, is_main := true
                              finished := .processOwned, start := .MainThread })]
          thread_count := 1, signal_intervals := [], children := [] }
        ⟨5⟩ 9).1 = [] :=
  ⟨(signal_thread_sentinel_resolution (WasiProcess.new ⟨1⟩ 0)
      { pid := ⟨1⟩, waiting := 0
        threads := [(⟨1⟩, { pid := ⟨1⟩, tid := ⟨1⟩, is_main := true
                            finished := .processOwned, start := .MainThread })]
        thread_count := 1, signal_intervals := [], children := [] }
      ⟨1073741823⟩ 9).2.2.2
      { pid := ⟨1⟩, tid := ⟨1⟩, is_main := true
        finished := .processOwned, start := .MainThread } (by rfl),
    (signal_thread_sentinel_resolution (WasiProcess.new ⟨1⟩ 0)
      { pid := ⟨1⟩, waiting := 0
        threads := [(⟨1⟩, { pid := ⟨1⟩, tid := ⟨1⟩, is_main := true
                            finished := .processOwned, start := .MainThread })]
        thread_count := 1, signal_intervals := [], children := [] }
      ⟨5⟩ 9).2.2.1 (by rfl)⟩

/-- C6: `new_thread` with the main-thread start kind gives the new thread
the process's own PID as its TID and the process's own completion object as
its status (and never consults the ID allocator), while any other start
kind mints a fresh ID from the control plane's shared allocator — failing
the whole call if that allocation fails — and gives the thread a fresh
completion object distinct from the process's own. -/
theorem new_thread_main_vs_spawn :
    ∀ (proc : WasiProcess) (plane : MutableState) (st : ThreadCreateState),
      (∃ t st', proc.new_thread plane st .MainThread = .ok (t, plane, st') ∧
        t.tid = (⟨proc.pid.raw⟩ : WasiThreadId) ∧ t.is_main = true ∧
        t.finished = TaskStatusRef.processOwned) ∧
      (∀ (ptr : Nat) (id : WasiProcessId) (plane' : MutableState),
        generate_id plane = .ok (id, plane') →
        ∃ t st',
          proc.new_thread plane st (.ThreadSpawn ptr) = .ok (t, plane', st') ∧
          t.tid = (⟨id.raw⟩ : WasiThreadId) ∧ t.is_main = false ∧
          t.finished = TaskStatusRef.freshStatus id.raw ∧
          t.finished ≠ TaskStatusRef.processOwned) ∧
      (∀ (ptr : Nat) (e : ControlPlaneError),
        generate_id plane = .error e →
        proc.new_thread plane st (.ThreadSpawn ptr) = .error e) := by
  intro proc plane st
  refine ⟨⟨_, _, rfl, rfl, rfl, rfl⟩, ?_, ?_⟩
  · intro ptr id plane' h
    have heq : proc.new_thread plane st (.ThreadSpawn ptr) =
        .ok ({ pid := proc.pid, tid := ⟨id.raw⟩, is_main := false
               finished := .freshStatus id.raw, start := .ThreadSpawn ptr },
          plane',
          { task_count := (st.task_count + 1) % usizeMod
            inner :=
              { st.inner with
                threads := mapInsert st.inner.threads ⟨id.raw⟩
                  { pid := proc.pid, tid := ⟨id.raw⟩, is_main := false
                    finished := .freshStatus id.raw
                    start := .ThreadSpawn ptr }
                thread_count := st.inner.thread_count + 1 } }) := by
      rw [WasiProcess.new_thread]
      simp only [ThreadStartType.isMainThread, Bool.false_eq_true, if_false, h]
      rfl
    exact ⟨_, _, heq, rfl, rfl, rfl, by simp⟩
  · intro ptr e h
    rw [WasiProcess.new_thread]
    simp only [ThreadStartType.isMainThread, Bool.false_eq_true, if_false, h]

/-- Witness for C6: on a concrete plane with seed 4, spawning a non-main
thread mints TID 5 and a fresh status, while the main thread of a pid-9
process gets TID 9 and the process's own status. -/
theorem new_thread_main_vs_spawn_witness :
    (∃ t st',
      (WasiProcess.new ⟨9⟩ 0).new_thread { process_seed := 4, processes := [] }
          { task_count := 0, inner := initialWasiProcessInner ⟨9⟩ }
          (.ThreadSpawn 77) = .ok (t, { process_seed := 5, processes := [] }, st') ∧
      t.tid = (⟨5⟩ : WasiThreadId) ∧ t.is_main = false ∧
      t.finished = TaskStatusRef.freshStatus 5 ∧
      t.finished ≠ TaskStatusRef.processOwned) ∧
    (∃ t st',
      (WasiProcess.new ⟨9⟩ 0).new_thread { process_seed := 4, processes := [] }
          { task_count := 0, inner := initialWasiProcessInner ⟨9⟩ }
          .MainThread = .ok (t, { process_seed := 4, processes := [] }, st') ∧
      t.tid = (⟨9⟩ : WasiThreadId) ∧ t.is_main = true ∧
      t.finished = TaskStatusRef.processOwned) :=
  ⟨(new_thread_main_vs_spawn (WasiProcess.new ⟨9⟩ 0)
      { process_seed := 4, processes := [] }
      { task_count := 0, inner := initialWasiProcessInner ⟨9⟩ }).2.1
      77 ⟨5⟩ { process_seed := 5, processes := [] } (by rfl),
    (new_thread_main_vs_spawn (WasiProcess.new ⟨9⟩ 0)
      { process_seed := 4, processes := [] }
      { task_count := 0, inner := initialWasiProcessInner ⟨9⟩ }).1⟩

/-- Shape of `new_thread_with_id` (it never fails, since `register_task`
never does): the thread is inserted under its tid and `thread_count` is
incremented unconditionally. -/
theorem new_thread_with_id_eq (proc : WasiProcess) (st : ThreadCreateState)
    (start : ThreadStartType) (tid : WasiThreadId) :
    proc.new_thread_with_id st start tid =
      .ok ({ pid := proc.pid, tid := tid, is_main := start.isMainThread
             finished :=
               if start.isMainThread then TaskStatusRef.processOwned
               else TaskStatusRef.freshStatus tid.raw
             start := start },
        { task_count := (st.task_count + 1) % usizeMod
          inner :=
            { st.inner with
              threads := mapInsert st.inner.threads tid
                { pid := proc.pid, tid := tid, is_main := start.isMainThread
                  finished :=
                    if start.isMainThread then TaskStatusRef.processOwned
                    else TaskStatusRef.freshStatus tid.raw
                  start := start }
              thread_count := st.inner.thread_count + 1 } }) := rfl

/-- Counterexample to C3 as stated: `new_thread_with_id` increments
`thread_count` unconditionally while `HashMap::insert` replaces an existing
entry, so inserting the same TID twice (two successful mutating operations
on the process) leaves `thread_count = 2` but a thread table with a single
entry. -/
theorem thread_count_counterexample :
    ∃ t₁ st₁ t₂ st₂,
      (WasiProcess.new ⟨1⟩ 0).new_thread_with_id
          { task_count := 0, inner := initialWasiProcessInner ⟨1⟩ }
          .MainThread ⟨1⟩ = .ok (t₁, st₁) ∧
      (WasiProcess.new ⟨1⟩ 0).new_thread_with_id st₁ .MainThread ⟨1⟩ =
        .ok (t₂, st₂) ∧
      st₂.inner.thread_count = 2 ∧ st₂.inner.threads.length = 1 ∧
      st₂.inner.thread_count ≠ st₂.inner.threads.length := by
  refine ⟨_, _, _, _, rfl, rfl, rfl, rfl, by decide⟩

/-- C3 (amended): provided every `new_thread_with_id` call inserts a TID not
already present in the thread table (as holds when TIDs come from the shared
allocator and the main thread is created once), `thread_count` equals
`threads.len()` after each mutating operation: a successful insert of a
fresh TID grows both by exactly one and keeps the table keys distinct, a
removal (modelled from the spec) of a present thread shrinks both by
exactly one, a removal of an absent TID changes nothing, and
`active_threads()` reads exactly `thread_count` — so after `N` fresh
inserts and `M` removals of present threads it reads `N − M`.  Without the
freshness proviso the invariant fails (see the counterexample). -/
theorem thread_count_matches_table :
    (∀ (proc : WasiProcess) (st : ThreadCreateState) (start : ThreadStartType)
        (tid : WasiThreadId) (t : WasiThread) (st' : ThreadCreateState),
        st.inner.thread_count = st.inner.threads.length →
        (st.inner.threads.map Prod.fst).Nodup →
        mapLookup st.inner.threads tid = none →
        proc.new_thread_with_id st start tid = .ok (t, st') →
        st'.inner.thread_count = st'.inner.threads.length ∧
        st'.inner.thread_count = st.inner.thread_count + 1 ∧
        (st'.inner.threads.map Prod.fst).Nodup) ∧
    (∀ (inner : WasiProcessInner) (tid : WasiThreadId),
        inner.thread_count = inner.threads.length →
        (inner.threads.map Prod.fst).Nodup →
        ((removeThread inner tid).thread_count =
            (removeThread inner tid).threads.length ∧
          ((removeThread inner tid).threads.map Prod.fst).Nodup ∧
          (mapLookup inner.threads tid ≠ none →
            (removeThread inner tid).thread_count =
              inner.thread_count - 1) ∧
          (mapLookup inner.threads tid = none →
            removeThread inner tid = inner))) ∧
    (∀ inner : WasiProcessInner,
        WasiProcess.active_threads inner = inner.thread_count) := by
  refine ⟨?_, ?_, fun _ => rfl⟩
  · intro proc st start tid t st' hcount hnd hfresh hok
    rw [new_thread_with_id_eq] at hok
    simp only [Except.ok.injEq, Prod.mk.injEq] at hok
    obtain ⟨-, hst⟩ := hok
    subst hst
    refine ⟨?_, rfl, mapInsert_keys_nodup _ _ _ hnd⟩
    show st.inner.thread_count + 1 = (mapInsert st.inner.threads tid _).length
    rw [mapInsert_length_of_lookup_none _ _ _ hfresh, hcount]
  · intro inner tid hcount hnd
    cases hlook : mapLookup inner.threads tid with
    | none =>
        have hrm : removeThread inner tid = inner := by
          rw [removeThread, hlook]
        refine ⟨by rw [hrm, hcount], by rw [hrm]; exact hnd, ?_, fun _ => hrm⟩
        intro hcontra
        exact absurd rfl hcontra
    | some t =>
        have hrm : removeThread inner tid =
            { inner with
              threads := mapRemove inner.threads tid
              thread_count := inner.thread_count - 1 } := by
          rw [removeThread, hlook]
        refine ⟨?_, ?_, fun _ => by rw [hrm], fun hcontra =>
          Option.noConfusion hcontra⟩
        · rw [hrm]
          show inner.thread_count - 1 = (mapRemove inner.threads tid).length
          have := mapRemove_length_of_lookup_some inner.threads tid t hnd hlook
          omega
        · rw [hrm]
          exact List.Nodup.sublist
            ((mapRemove_sublist inner.threads tid).map Prod.fst) hnd

/-- Witness for C3 (amended) at a concrete process: inserting fresh TID 7
into a singleton table keeps count and size in step at 2, and removing it
again returns both to 1. -/
theorem thread_count_matches_table_witness :
    (∃ t st',
      (WasiProcess.new ⟨1⟩ 0).new_thread_with_id
          { task_count := 1
            inner :=
              { pid := ⟨1⟩, waiting := 0
                threads := [(⟨1⟩, { pid := ⟨1⟩, tid := ⟨1⟩, is_main := true
                                    finished := .processOwned
                                    start := .MainThread })]
                thread_count := 1, signal_intervals := [], children := [] } }
          (.ThreadSpawn 3) ⟨7⟩ = .ok (t, st') ∧
      st'.inner.thread_count = st'.inner.threads.length ∧
      st'.inner.thread_count = 2) ∧
    WasiProcess.active_threads (initialWasiProcessInner ⟨1⟩) = 0 := by
  refine ⟨⟨_, _, rfl, ?_, ?_⟩, ?_⟩
  · exact ((thread_count_matches_table.1 (WasiProcess.new ⟨1⟩ 0)
      { task_count := 1
        inner :=
          { pid := ⟨1⟩, waiting := 0
            threads := [(⟨1⟩, { pid := ⟨1⟩, tid := ⟨1⟩, is_main := true
                                finished := .processOwned
                                start := .MainThread })]
            thread_count := 1, signal_intervals := [], children := [] } }
      (.ThreadSpawn 3) ⟨7⟩ _ _ rfl (by decide) (by rfl) rfl).1)
  · rfl
  · exact thread_count_matches_table.2.2 (initialWasiProcessInner ⟨1⟩)

/-- In a list of pids with pairwise-distinct raw values, `Vec::retain`-ing
everything whose raw pid differs from that of the `k`-th element removes
exactly the `k`-th element. -/
theorem filter_ne_get_eq_eraseIdx :
    ∀ (l : List WasiProcessId) (k : Nat) (hk : k < l.length),
      (l.map WasiProcessId.raw).Nodup →
      l.filter (fun a => a.raw ≠ l[k].raw) = l.eraseIdx k := by
  intro l
  induction l with
  | nil => intro k hk _; exact absurd hk (by simp)
  | cons p l ih =>
      intro k hk hnd
      simp only [List.map_cons, List.nodup_cons] at hnd
      cases k with
      | zero =>
          have hget : (p :: l)[0] = p := rfl
          have herase : (p :: l).eraseIdx 0 = l := rfl
          rw [hget, herase, List.filter_cons, if_neg (by simp)]
          refine List.filter_eq_self.mpr ?_
          intro a ha
          simp only [decide_eq_true_eq]
          intro hcontra
          exact hnd.1 (hcontra ▸ List.mem_map_of_mem WasiProcessId.raw ha)
      | succ k =>
          have hk' : k < l.length := by
            simpa using hk
          have hget : (p :: l)[k + 1] = l[k] := rfl
          have herase : (p :: l).eraseIdx (k + 1) = p :: l.eraseIdx k := rfl
          have hpne : p.raw ≠ l[k].raw := by
            intro hcontra
            refine hnd.1 (hcontra ▸
              List.mem_map_of_mem WasiProcessId.raw ?_)
            exact List.getElem_mem hk'
          rw [hget, herase, List.filter_cons, if_pos (by simpa using hpne)]
          rw [ih k hk' hnd.2]

/-- C7: `join_any_child` fails with the no-child error exactly when the
children list is empty at call time, leaving the state unchanged in that
case; otherwise (when every child resolves in the plane registry, as
`new_process` guarantees for spawned children, and pids are distinct) it
returns the pid and settled exit code of whichever child's join settles
first and removes exactly that child from the live children list, leaving
every other child in place. -/
theorem join_any_child_no_child_iff :
    ∀ (proc : WasiProcess) (inner : WasiProcessInner) (registered : Nat → Bool)
      (settled : Nat → ExitCode) (k : Nat),
      (inner.children = [] →
        proc.join_any_child inner registered settled k =
          some (.error Errno.Child, inner)) ∧
      (∀ (e : Errno) (inner' : WasiProcessInner),
        proc.join_any_child inner registered settled k =
          some (.error e, inner') →
        e = Errno.Child ∧ inner.children = [] ∧ inner' = inner) ∧
      (∀ hk : k < inner.children.length,
        (∀ c ∈ inner.children, registered c.raw = true) →
        (inner.children.map WasiProcessId.raw).Nodup →
        proc.join_any_child inner registered settled k =
          some (.ok (some (inner.children[k], settled inner.children[k].raw)),
            { inner with children := inner.children.eraseIdx k })) := by
  intro proc inner registered settled k
  refine ⟨?_, ?_, ?_⟩
  · intro h
    rw [WasiProcess.join_any_child]
    simp [h]
  · intro e inner' h
    rw [WasiProcess.join_any_child] at h
    by_cases hemp : inner.children.isEmpty
    · rw [if_pos hemp] at h
      simp only [Option.some.injEq, Prod.mk.injEq, Except.error.injEq] at h
      exact ⟨h.1.symm, List.isEmpty_iff.mp hemp, h.2.symm⟩
    · rw [if_neg hemp] at h
      cases hw : (inner.children.filter fun c => registered c.raw)[k]? with
      | none => rw [hw] at h; exact Option.noConfusion h
      | some child =>
          rw [hw] at h
          simp only [Option.some.injEq, Prod.mk.injEq] at h
          exact absurd h.1 (fun hcontra => Except.noConfusion hcontra)
  · intro hk hreg hnd
    have hfilter : inner.children.filter (fun c => registered c.raw) =
        inner.children := List.filter_eq_self.mpr hreg
    have hne : inner.children.isEmpty = false := by
      cases hc : inner.children with
      | nil => rw [hc] at hk; exact absurd hk (by simp)
      | cons a l => rfl
    rw [WasiProcess.join_any_child]
    rw [if_neg (by rw [hne]; exact Bool.false_ne_true)]
    rw [hfilter]
    simp only [List.getElem?_eq_getElem hk]
    rw [filter_ne_get_eq_eraseIdx inner.children k hk hnd]

/-- Witness for C7: on a process with children `{2, 3}` where the join on
child 2 settles first, the call returns `(2, its exit code)` and leaves
child 3 in the list; on a childless process it fails with the no-child
error and changes nothing. -/
theorem join_any_child_no_child_iff_witness :
    (WasiProcess.new ⟨1⟩ 0).join_any_child
        { pid := ⟨1⟩, waiting := 1, threads := [], thread_count := 0
          signal_intervals := [], children := [⟨2⟩, ⟨3⟩] }
        (fun _ => true) (fun p => p * 10) 0 =
      some (.ok (some (⟨2⟩, 20)),
        { pid := ⟨1⟩, waiting := 1, threads := [], thread_count := 0
          signal_intervals := [], children := [⟨3⟩] }) ∧
    (WasiProcess.new ⟨1⟩ 0).join_any_child (initialWasiProcessInner ⟨1⟩)
        (fun _ => true) (fun p => p * 10) 0 =
      some (.error Errno.Child, initialWasiProcessInner ⟨1⟩) :=
  ⟨(join_any_child_no_child_iff (WasiProcess.new ⟨1⟩ 0)
      { pid := ⟨1⟩, waiting := 1, threads := [], thread_count := 0
        signal_intervals := [], children := [⟨2⟩, ⟨3⟩] }
      (fun _ => true) (fun p => p * 10) 0).2.2 (by decide)
      (fun c _ => rfl) (by decide),
    (join_any_child_no_child_iff (WasiProcess.new ⟨1⟩ 0)
      (initialWasiProcessInner ⟨1⟩) (fun _ => true) (fun p => p * 10) 0).1
      rfl⟩

end Wasmer
